import Mathlib

/-!
Shallow embedding of the verification-analytics engine of
`analyze_swap_log_verification.py` (class `SwapLogAnalyzer`), together with
the order-field normalization of `analyze_filled_orders.py`
(`get_order_characteristics`).

Numeric samples (`difference_bps`) are modelled as exact rationals; the
Python floats `0.50`, `0.95`, `0.99` used as quantile factors are modelled
by the exact fractions, which agrees with `int(n * q)` on IEEE doubles for
every list length arising in practice.  Counters are naturals.  The
`defaultdict` containers of the analyzer are modelled as total functions
with a default value, paired with the list of keys in first-insertion
order (Python dicts preserve insertion order).  The fields
`error_examples`, `total_swaps` and `liquidity_files_processed` are not
modelled: no claim refers to them and they feed no modelled computation.
-/

namespace SwapLog

/-- The Python substring test `pat in s`. -/
def strContains (s pat : String) : Bool := decide (pat.data <:+: s.data)

/-- The closed set of error categories of `_analyze_swap`
(lines 196-210 of `analyze_swap_log_verification.py`). -/
inductive ErrorCategory where
  | ZeroAmount
  | VMExecutionError
  | NegativeOutputDelta
  | SolverCalculationFailed
  | Other
deriving DecidableEq

/-- Error categorization of `_analyze_swap`, lines 196-210: the
`if amount_in == '0' / elif ... in error / ... / else` chain. -/
def categorizeError (amount errText : String) : ErrorCategory :=
  if amount = "0" then .ZeroAmount
  else if strContains errText "VM execution error" then .VMExecutionError
  else if strContains errText "negative output delta" then .NegativeOutputDelta
  else if strContains errText "Swap failed in solver" then .SolverCalculationFailed
  else .Other

/-- The magnitude buckets of `_analyze_swap`, lines 177-190. -/
inductive Bucket where
  | Perfect
  | Within1
  | Within10
  | Within100
  | Over100
deriving DecidableEq

/-- Magnitude bucketing of `_analyze_swap`, lines 174-190:
`abs_diff = abs(diff_bps)` followed by the
`if abs_diff == 0 / elif abs_diff <= 1 / <= 10 / <= 100 / else` chain. -/
def bucketOf (d : ℚ) : Bucket :=
  if |d| = 0 then .Perfect
  else if |d| ≤ 1 then .Within1
  else if |d| ≤ 10 then .Within10
  else if |d| ≤ 100 then .Within100
  else .Over100

/-- A normalized swap record, the fields read in `_analyze_swap`
lines 138-143. -/
structure Swap where
  kind : String
  pool_version : String
  verified : Bool
  difference_bps : Option ℚ
  errText : String
  amount_in : String
deriving DecidableEq

/-- A raw swap record: each field may be absent (`swap.get` misses).
A JSON `null` for `difference_bps` behaves like absence, so a single
`Option` layer suffices. -/
structure RawSwap where
  kind : Option String
  pool_version : Option String
  verified : Option Bool
  difference_bps : Option ℚ
  errText : Option String
  amount_in : Option String
deriving DecidableEq

/-- Field normalization of `_analyze_swap`, lines 138-143: the `.get`
defaults `'unknown'`, `'Unknown'`, `False`, `None`, `''`, `'0'`.  It is
total: a record with no resolvable primary key is given the defaulted
key, not rejected. -/
def normalizeSwap (raw : RawSwap) : Swap :=
  { kind := raw.kind.getD "unknown"
  , pool_version := raw.pool_version.getD "Unknown"
  , verified := raw.verified.getD false
  , difference_bps := raw.difference_bps
  , errText := raw.errText.getD ""
  , amount_in := raw.amount_in.getD "0" }

/-- The alias pair for an order's sell token in
`get_order_characteristics` of `analyze_filled_orders.py` (line 53). -/
structure RawOrderKeys where
  sellToken : Option String
  sellTokenSnake : Option String
deriving DecidableEq

/-- `order.get("sellToken", order.get("sell_token", ""))`
(`analyze_filled_orders.py`, line 53): defaults to the empty string,
never fails. -/
def orderSellToken (f : RawOrderKeys) : String :=
  f.sellToken.getD (f.sellTokenSnake.getD "")

/-- One entry of `self.pool_stats` (lines 48-59). -/
structure PoolStats where
  total : ℕ
  verified : ℕ
  perfect : ℕ
  errors : ℕ
  within_1bps : ℕ
  within_10bps : ℕ
  within_100bps : ℕ
  over_100bps : ℕ
  pool_type : String
  version : String
deriving DecidableEq

/-- The default entry produced by the `defaultdict` factory
(lines 48-59): all counters zero, the two strings empty. -/
def defaultPoolStats : PoolStats :=
  { total := 0, verified := 0, perfect := 0, errors := 0
  , within_1bps := 0, within_10bps := 0, within_100bps := 0, over_100bps := 0
  , pool_type := "", version := "" }

/-- One of `self.v2_stats` / `self.v3_stats` (lines 77-88). -/
structure VersionStats where
  total : ℕ
  verified : ℕ
  perfect : ℕ
  errors : ℕ
deriving DecidableEq

/-- The mutable state of a `SwapLogAnalyzer` (the fields of `__init__`
that the modelled methods read or write). -/
structure State where
  poolStats : String → PoolStats
  poolKeys : List String
  diffDists : String → List ℚ
  errorTypes : String → ErrorCategory → ℕ
  totalVerified : ℕ
  totalErrors : ℕ
  zeroAmountErrors : ℕ
  vmErrors : ℕ
  otherErrors : ℕ
  v2Stats : VersionStats
  v3Stats : VersionStats
  availableLiquidity : String → ℕ
  availKeys : List String

/-- The freshly constructed analyzer (`__init__`): every container empty,
every counter zero. -/
def initState : State :=
  { poolStats := fun _ => defaultPoolStats
  , poolKeys := []
  , diffDists := fun _ => []
  , errorTypes := fun _ _ => 0
  , totalVerified := 0
  , totalErrors := 0
  , zeroAmountErrors := 0
  , vmErrors := 0
  , otherErrors := 0
  , v2Stats := ⟨0, 0, 0, 0⟩
  , v3Stats := ⟨0, 0, 0, 0⟩
  , availableLiquidity := fun _ => 0
  , availKeys := [] }

/-- The combined key `f"{pool_type} {pool_version}"` (line 146). -/
def poolKeyOf (r : Swap) : String := r.kind ++ " " ++ r.pool_version

/-- The per-group update of `_analyze_swap`: `total += 1` and the two
string fields (lines 150-152), then `verified += 1` and the bucket
counters in the verified branch (lines 168-190), or `errors += 1` in the
failure branch (line 193). -/
def updateGroup (st : PoolStats) (r : Swap) : PoolStats :=
  let st := { st with total := st.total + 1
                    , pool_type := r.kind, version := r.pool_version }
  if r.verified then
    let st := { st with verified := st.verified + 1 }
    match r.difference_bps with
    | none => st
    | some d =>
      match bucketOf d with
      | .Perfect => { st with perfect := st.perfect + 1 }
      | .Within1 => { st with within_1bps := st.within_1bps + 1 }
      | .Within10 => { st with within_10bps := st.within_10bps + 1 }
      | .Within100 => { st with within_100bps := st.within_100bps + 1 }
      | .Over100 => { st with over_100bps := st.over_100bps + 1 }
  else
    { st with errors := st.errors + 1 }

/-- The version-rollup update (lines 155-166 together with the `perfect`
bump of lines 179-182, which fires only for a verified record whose
deviation is present and has absolute value zero). -/
def updateVersion (vs : VersionStats) (r : Swap) : VersionStats :=
  if r.verified then
    { vs with total := vs.total + 1, verified := vs.verified + 1
            , perfect := vs.perfect +
                (match r.difference_bps with
                 | some d => if |d| = 0 then 1 else 0
                 | none => 0) }
  else
    { vs with total := vs.total + 1, errors := vs.errors + 1 }

/-- `_analyze_swap` (lines 136-230, the `error_examples` bookkeeping
aside).  The global error counters of lines 196-210 are driven by
`categorizeError`, which packages the same `if/elif` chain: the
`ZeroAmount` arm bumps `zero_amount_errors`, the `VMExecutionError` arm
bumps `vm_errors`, and the remaining three arms all bump
`other_errors`. -/
def analyzeSwap (s : State) (r : Swap) : State :=
  let key := poolKeyOf r
  let s1 : State :=
    { s with
      poolStats := fun k =>
        if k = key then updateGroup (s.poolStats k) r else s.poolStats k
      poolKeys :=
        if key ∈ s.poolKeys then s.poolKeys else s.poolKeys ++ [key] }
  let s2 : State :=
    if r.pool_version = "V2" then
      { s1 with v2Stats := updateVersion s1.v2Stats r }
    else if r.pool_version = "V3" then
      { s1 with v3Stats := updateVersion s1.v3Stats r }
    else s1
  if r.verified then
    let s3 : State := { s2 with totalVerified := s2.totalVerified + 1 }
    match r.difference_bps with
    | none => s3
    | some d =>
      { s3 with diffDists := fun k =>
          if k = key then s3.diffDists k ++ [|d|] else s3.diffDists k }
  else
    let cat := categorizeError r.amount_in r.errText
    { s2 with
      totalErrors := s2.totalErrors + 1
      zeroAmountErrors :=
        s2.zeroAmountErrors + (if cat = .ZeroAmount then 1 else 0)
      vmErrors := s2.vmErrors + (if cat = .VMExecutionError then 1 else 0)
      otherErrors := s2.otherErrors +
        (if cat = .ZeroAmount ∨ cat = .VMExecutionError then 0 else 1)
      errorTypes := fun k c =>
        if k = key ∧ c = cat then s2.errorTypes k c + 1
        else s2.errorTypes k c }

/-- Ingesting a batch of records in sequence (the loop of
`_analyze_file`, line 119-120). -/
def foldIngest (l : List Swap) (s : State) : State := l.foldl analyzeSwap s

/-- `_analyze_liquidity` (lines 130-132): one increment of
`available_liquidity[kind]` for one pool of the liquidity stream. -/
def ingestLiquidityPool (s : State) (kind : String) : State :=
  { s with
    availableLiquidity := fun k =>
      if k = kind then s.availableLiquidity k + 1 else s.availableLiquidity k
    availKeys :=
      if kind ∈ s.availKeys then s.availKeys else s.availKeys ++ [kind] }

/-- The result record of `_calculate_percentiles`. -/
structure Percentiles where
  p50 : ℚ
  p95 : ℚ
  p99 : ℚ
  max : ℚ
deriving DecidableEq

/-- `_calculate_percentiles` (lines 232-245).  `int(n * q)` on doubles
equals `⌊n·q⌋`, written here as natural division; the `getD` default `0`
is unreachable because the index is `< n` (proved below), matching the
in-range Python indexing; `sorted_values[-1]` is the last element. -/
def percentiles (values : List ℚ) : Percentiles :=
  if values = [] then ⟨0, 0, 0, 0⟩ else
  let sorted := values.insertionSort (· ≤ ·)
  let n := sorted.length
  { p50 := if 0 < n then sorted.getD (n * 50 / 100) 0 else 0
  , p95 := if 0 < n then sorted.getD (n * 95 / 100) 0 else 0
  , p99 := if 0 < n then sorted.getD (n * 99 / 100) 0 else 0
  , max := if 0 < n then (sorted.getLast?).getD 0 else 0 }

/-- Modelled from the spec's words for comparison with `percentiles`:
sort ascending, index each quantile at `⌊n * q⌋` clamped to `[0, n-1]`,
take `max` at the last index, and return all zeros on empty input. -/
def percentilesSpec (values : List ℚ) : Percentiles :=
  if values = [] then ⟨0, 0, 0, 0⟩ else
  let sorted := values.insertionSort (· ≤ ·)
  let n := sorted.length
  { p50 := sorted.getD (min ⌊(n : ℚ) * (50 / 100)⌋₊ (n - 1)) 0
  , p95 := sorted.getD (min ⌊(n : ℚ) * (95 / 100)⌋₊ (n - 1)) 0
  , p99 := sorted.getD (min ⌊(n : ℚ) * (99 / 100)⌋₊ (n - 1)) 0
  , max := sorted.getD (n - 1) 0 }

/-- Per-record bump of the `verified` counter. -/
def vDelta (r : Swap) : ℕ := if r.verified then 1 else 0

/-- Per-record bump of the `errors` counter. -/
def eDelta (r : Swap) : ℕ := if r.verified then 0 else 1

/-- Per-record bump of one magnitude-bucket counter. -/
def bDelta (b : Bucket) (r : Swap) : ℕ :=
  if r.verified then
    match r.difference_bps with
    | some d => if bucketOf d = b then 1 else 0
    | none => 0
  else 0

/-- The deviation samples a record contributes (lines 173-175). -/
def sampleOf (r : Swap) : List ℚ :=
  if r.verified then
    match r.difference_bps with
    | some d => [|d|]
    | none => []
  else []

/-- Per-record bump of a global error counter selected by `p`. -/
def gDelta (p : ErrorCategory → Bool) (r : Swap) : ℕ :=
  if r.verified then 0
  else if p (categorizeError r.amount_in r.errText) then 1 else 0

/-- Indicator for "this record lands in group `k`". -/
def keyDelta (k : String) (δ : Swap → ℕ) (r : Swap) : ℕ :=
  if k = poolKeyOf r then δ r else 0

/-- The items of `self.pool_stats` in dict (first-insertion) order. -/
def poolItems (s : State) : List (String × PoolStats) :=
  s.poolKeys.map (fun k => (k, s.poolStats k))

/-- `pools_by_type[t][v]` (lines 366-370): nested dict writes are
last-write-wins, so this is the stats of the last item whose stored
`pool_type`/`version` fields are `(t, v)`. -/
def vstatsFor (s : State) (t v : String) : Option PoolStats :=
  ((poolItems s).reverse.find?
      (fun p => p.2.pool_type == t && p.2.version == v)).map Prod.snd

/-- `(num / den * 100) if den > 0 else 0` (lines 388-391). -/
def pctRate (num den : ℕ) : ℚ :=
  if 0 < den then (num : ℚ) / den * 100 else 0

/-- One row block of the V2-vs-V3 comparison (lines 382-405): the two
rates per metric and their printed difference, and, when both
difference distributions are nonempty, the two p99 values and their
printed difference. -/
structure CompRow where
  poolType : String
  v2Success : ℚ
  v3Success : ℚ
  successDelta : ℚ
  v2Perfect : ℚ
  v3Perfect : ℚ
  perfectDelta : ℚ
  p99Pair : Option (ℚ × ℚ × ℚ)
deriving DecidableEq

/-- The comparison block for one pool type: emitted exactly when the
type occurs under both versions (lines 373-376). -/
def compRow (s : State) (t : String) : Option CompRow :=
  match vstatsFor s t "V2", vstatsFor s t "V3" with
  | some a, some b => some
    { poolType := t
    , v2Success := pctRate a.verified a.total
    , v3Success := pctRate b.verified b.total
    , successDelta := pctRate a.verified a.total - pctRate b.verified b.total
    , v2Perfect := pctRate a.perfect a.total
    , v3Perfect := pctRate b.perfect b.total
    , perfectDelta := pctRate a.perfect a.total - pctRate b.perfect b.total
    , p99Pair :=
        if s.diffDists (t ++ " V2") ≠ [] ∧ s.diffDists (t ++ " V3") ≠ [] then
          some ((percentiles (s.diffDists (t ++ " V2"))).p99,
                (percentiles (s.diffDists (t ++ " V3"))).p99,
                (percentiles (s.diffDists (t ++ " V2"))).p99 -
                  (percentiles (s.diffDists (t ++ " V3"))).p99)
        else none }
  | _, _ => none

/-- The whole V2-vs-V3 comparison table (lines 365-405). -/
def comparisonTable (s : State) : List CompRow :=
  (((poolItems s).map (fun p => p.2.pool_type)).dedup).filterMap (compRow s)

/-- `used_by_type[t]` (lines 295-297): total swaps summed over the
groups whose stored `pool_type` field is `t`. -/
def usedByType (s : State) (t : String) : ℕ :=
  (((poolItems s).filter (fun p => p.2.pool_type == t)).map
      (fun p => p.2.total)).sum

/-- `all_types` (line 300): the union of the availability-tally keys and
the used-group keys (the report sorts it; order is irrelevant here). -/
def allTypes (s : State) : List String :=
  (s.availKeys ++ (poolItems s).map (fun p => p.2.pool_type)).dedup

/-- `ratio = (used / available) if available > 0 else 0` (line 305). -/
def utilizationRatio (s : State) (t : String) : ℚ :=
  if 0 < s.availableLiquidity t then
    (usedByType s t : ℚ) / (s.availableLiquidity t : ℚ)
  else 0

/-- A succeeded record whose deviation field is null. -/
def nullDeviationSwap : Swap :=
  { kind := "weightedProduct", pool_version := "V2", verified := true
  , difference_bps := none, errText := "", amount_in := "1" }

/-- A succeeded record carrying deviation 0, used to witness the
amended C4. -/
def perfectSwap : Swap :=
  { kind := "weightedProduct", pool_version := "V2", verified := true
  , difference_bps := some 0, errText := "", amount_in := "1" }

/-- Five failed swaps of one pool type with no availability entry. -/
def usedOnlySwap : Swap :=
  { kind := "gyroE", pool_version := "V2", verified := false
  , difference_bps := none, errText := "some error", amount_in := "5" }

def usedOnlyState : State :=
  foldIngest [usedOnlySwap, usedOnlySwap, usedOnlySwap, usedOnlySwap,
    usedOnlySwap] initState

/-- Demo state for claim C6: one pool type ingested under both versions. -/
def bothVersionsState : State :=
  foldIngest
    [ { kind := "stable", pool_version := "V2", verified := true
      , difference_bps := some 0, errText := "", amount_in := "1" }
    , { kind := "stable", pool_version := "V3", verified := true
      , difference_bps := some 0, errText := "", amount_in := "1" } ]
    initState

/-- A raw record carrying no fields at all, in particular no primary
key. -/
def keylessRawSwap : RawSwap :=
  { kind := none, pool_version := none, verified := none
  , difference_bps := none, errText := none, amount_in := none }

theorem updateGroup_eq (st : PoolStats) (r : Swap) :
    updateGroup st r =
      { total := st.total + 1
      , verified := st.verified + vDelta r
      , perfect := st.perfect + bDelta .Perfect r
      , errors := st.errors + eDelta r
      , within_1bps := st.within_1bps + bDelta .Within1 r
      , within_10bps := st.within_10bps + bDelta .Within10 r
      , within_100bps := st.within_100bps + bDelta .Within100 r
      , over_100bps := st.over_100bps + bDelta .Over100 r
      , pool_type := r.kind
      , version := r.pool_version } := by
  cases hv : r.verified <;> cases hd : r.difference_bps <;>
    simp [updateGroup, vDelta, eDelta, bDelta, hv, hd]
  case true.some d =>
    cases hb : bucketOf d <;> simp [hb]

theorem analyzeSwap_poolStats (s : State) (r : Swap) (k : String) :
    (analyzeSwap s r).poolStats k =
      if k = poolKeyOf r then updateGroup (s.poolStats k) r
      else s.poolStats k := by
  cases hv : r.verified <;> cases hd : r.difference_bps <;>
    simp [analyzeSwap, hv, hd] <;> split_ifs <;> simp [*]

theorem analyzeSwap_diffDists (s : State) (r : Swap) (k : String) :
    (analyzeSwap s r).diffDists k =
      s.diffDists k ++ (if k = poolKeyOf r then sampleOf r else []) := by
  cases hv : r.verified <;> cases hd : r.difference_bps <;>
    simp [analyzeSwap, sampleOf, hv, hd] <;> split_ifs <;> simp [*]

theorem analyzeSwap_totalErrors (s : State) (r : Swap) :
    (analyzeSwap s r).totalErrors =
      s.totalErrors + gDelta (fun _ => true) r := by
  cases hv : r.verified <;> cases hd : r.difference_bps <;>
    simp [analyzeSwap, gDelta, hv, hd] <;> split_ifs <;> simp [*]

theorem analyzeSwap_zeroAmountErrors (s : State) (r : Swap) :
    (analyzeSwap s r).zeroAmountErrors =
      s.zeroAmountErrors + gDelta (fun c => c = .ZeroAmount) r := by
  cases hv : r.verified <;> cases hd : r.difference_bps <;>
    simp [analyzeSwap, gDelta, hv, hd] <;> split_ifs <;> simp [*]

theorem analyzeSwap_vmErrors (s : State) (r : Swap) :
    (analyzeSwap s r).vmErrors =
      s.vmErrors + gDelta (fun c => c = .VMExecutionError) r := by
  cases hv : r.verified <;> cases hd : r.difference_bps <;>
    simp [analyzeSwap, gDelta, hv, hd] <;> split_ifs <;> simp [*]

theorem analyzeSwap_otherErrors (s : State) (r : Swap) :
    (analyzeSwap s r).otherErrors =
      s.otherErrors +
        gDelta (fun c => ¬(c = .ZeroAmount ∨ c = .VMExecutionError)) r := by
  cases hv : r.verified <;> cases hd : r.difference_bps <;>
    simp [analyzeSwap, gDelta, hv, hd] <;> split_ifs <;> simp_all

/-- A natural-valued observation that increases by a per-record delta
under one ingest step increases by the summed deltas under a batch. -/
theorem foldIngest_nat (g : State → ℕ) (δ : Swap → ℕ)
    (h : ∀ s r, g (analyzeSwap s r) = g s + δ r) :
    ∀ (l : List Swap) (s : State),
      g (foldIngest l s) = g s + (l.map δ).sum := by
  intro l
  induction l with
  | nil => intro s; simp [foldIngest]
  | cons r t ih =>
    intro s
    have : foldIngest (r :: t) s = foldIngest t (analyzeSwap s r) := rfl
    rw [this, ih, h]
    simp [Nat.add_assoc]

/-- A list-valued observation that grows by a per-record suffix under one
ingest step grows by the concatenated suffixes under a batch. -/
theorem foldIngest_list (g : State → List ℚ) (δ : Swap → List ℚ)
    (h : ∀ s r, g (analyzeSwap s r) = g s ++ δ r) :
    ∀ (l : List Swap) (s : State),
      g (foldIngest l s) = g s ++ (l.map δ).flatten := by
  intro l
  induction l with
  | nil => intro s; simp [foldIngest]
  | cons r t ih =>
    intro s
    have : foldIngest (r :: t) s = foldIngest t (analyzeSwap s r) := rfl
    rw [this, ih, h]
    simp

theorem step_total (k : String) (s : State) (r : Swap) :
    ((analyzeSwap s r).poolStats k).total =
      (s.poolStats k).total + keyDelta k (fun _ => 1) r := by
  rw [analyzeSwap_poolStats]; unfold keyDelta
  split_ifs <;> simp [updateGroup_eq]

theorem step_verified (k : String) (s : State) (r : Swap) :
    ((analyzeSwap s r).poolStats k).verified =
      (s.poolStats k).verified + keyDelta k vDelta r := by
  rw [analyzeSwap_poolStats]; unfold keyDelta
  split_ifs <;> simp [updateGroup_eq]

theorem step_errors (k : String) (s : State) (r : Swap) :
    ((analyzeSwap s r).poolStats k).errors =
      (s.poolStats k).errors + keyDelta k eDelta r := by
  rw [analyzeSwap_poolStats]; unfold keyDelta
  split_ifs <;> simp [updateGroup_eq]

theorem step_perfect (k : String) (s : State) (r : Swap) :
    ((analyzeSwap s r).poolStats k).perfect =
      (s.poolStats k).perfect + keyDelta k (bDelta .Perfect) r := by
  rw [analyzeSwap_poolStats]; unfold keyDelta
  split_ifs <;> simp [updateGroup_eq]

theorem step_within1 (k : String) (s : State) (r : Swap) :
    ((analyzeSwap s r).poolStats k).within_1bps =
      (s.poolStats k).within_1bps + keyDelta k (bDelta .Within1) r := by
  rw [analyzeSwap_poolStats]; unfold keyDelta
  split_ifs <;> simp [updateGroup_eq]

theorem step_within10 (k : String) (s : State) (r : Swap) :
    ((analyzeSwap s r).poolStats k).within_10bps =
      (s.poolStats k).within_10bps + keyDelta k (bDelta .Within10) r := by
  rw [analyzeSwap_poolStats]; unfold keyDelta
  split_ifs <;> simp [updateGroup_eq]

theorem step_within100 (k : String) (s : State) (r : Swap) :
    ((analyzeSwap s r).poolStats k).within_100bps =
      (s.poolStats k).within_100bps + keyDelta k (bDelta .Within100) r := by
  rw [analyzeSwap_poolStats]; unfold keyDelta
  split_ifs <;> simp [updateGroup_eq]

theorem step_over100 (k : String) (s : State) (r : Swap) :
    ((analyzeSwap s r).poolStats k).over_100bps =
      (s.poolStats k).over_100bps + keyDelta k (bDelta .Over100) r := by
  rw [analyzeSwap_poolStats]; unfold keyDelta
  split_ifs <;> simp [updateGroup_eq]

theorem step_diffDists (k : String) (s : State) (r : Swap) :
    (analyzeSwap s r).diffDists k =
      s.diffDists k ++ (if k = poolKeyOf r then sampleOf r else []) :=
  analyzeSwap_diffDists s r k

/-- Splitting a sum of pointwise sums. -/
theorem sum_map_split (f g : Swap → ℕ) (l : List Swap) :
    (l.map (fun r => f r + g r)).sum = (l.map f).sum + (l.map g).sum := by
  induction l with
  | nil => simp
  | cons r t ih => simp [ih]; omega

/-- Sum congruence over the members of a list. -/
theorem sum_map_congr (f g : Swap → ℕ) (l : List Swap)
    (h : ∀ r ∈ l, f r = g r) : (l.map f).sum = (l.map g).sum := by
  induction l with
  | nil => simp
  | cons r t ih =>
    simp only [List.map_cons, List.sum_cons]
    rw [h r (by simp), ih (fun x hx => h x (by simp [hx]))]

theorem initState_poolStats (k : String) : initState.poolStats k = defaultPoolStats := rfl

/-- `⌊n·(c/100)⌋` as natural division. -/
theorem floor_mul_percent (n c : ℕ) :
    ⌊(n : ℚ) * ((c : ℚ) / 100)⌋₊ = n * c / 100 := by
  have h : (n : ℚ) * ((c : ℚ) / 100) = ((n * c : ℕ) : ℚ) / ((100 : ℕ) : ℚ) := by
    push_cast; ring
  rw [h, Nat.floor_div_nat, Nat.floor_natCast]

/-- The quantile index of `_calculate_percentiles` is already in range:
`n·c/100 ≤ n-1` for `c < 100` on a nonempty list. -/
theorem percent_index_le (n c : ℕ) (hn : 0 < n) (hc : c < 100) :
    n * c / 100 ≤ n - 1 := by
  have h : n * c / 100 < n := by
    rw [Nat.div_lt_iff_lt_mul (by norm_num : (0:ℕ) < 100)]
    exact (Nat.mul_lt_mul_left hn).mpr hc
  omega

/-- Claim C1: `_calculate_percentiles` returns exactly the spec's description
(sort ascending, index at `⌊n·q⌋` clamped to `[0, n-1]`, `max` at the
last index, zeros on empty input), together with the three worked
examples. -/
theorem percentiles_match_spec :
    (∀ values : List ℚ, percentiles values = percentilesSpec values) ∧
      percentiles [] = ⟨0, 0, 0, 0⟩ ∧
      percentiles [5] = ⟨5, 5, 5, 5⟩ ∧
      percentiles [1, 2, 3, 4, 5, 6, 7, 8, 9, 10] = ⟨6, 10, 10, 10⟩ := by
  refine ⟨?_, by decide, by decide, by decide⟩
  intro values
  by_cases hv : values = []
  · subst hv; rfl
  · unfold percentiles percentilesSpec
    rw [if_neg hv, if_neg hv]
    have hlen : 0 < (values.insertionSort (· ≤ ·)).length := by
      rw [List.length_insertionSort]
      exact List.length_pos.mpr hv
    have hidx : ∀ c : ℕ, c < 100 →
        min ⌊((values.insertionSort (· ≤ ·)).length : ℚ) * ((c : ℚ) / 100)⌋₊
            ((values.insertionSort (· ≤ ·)).length - 1) =
          (values.insertionSort (· ≤ ·)).length * c / 100 := by
      intro c hc
      rw [floor_mul_percent]
      exact min_eq_left (percent_index_le _ c hlen hc)
    have h50 := hidx 50 (by norm_num)
    have h95 := hidx 95 (by norm_num)
    have h99 := hidx 99 (by norm_num)
    simp only [Nat.cast_ofNat] at h50 h95 h99
    simp only [hlen, if_pos, if_true]
    rw [h50, h95, h99, List.getLast?_eq_getElem?]
    simp only [List.getD_eq_getElem?_getD]

/-- Claim C2: the error classifier follows the stated precedence, first match
winning, and is total over the five labels; in particular a zero-amount
record with VM-error text classifies as `ZeroAmount`. -/
theorem categorizeError_precedence :
    (∀ a e : String, categorizeError a e = .ZeroAmount ↔ a = "0") ∧
      (∀ a e : String, categorizeError a e = .VMExecutionError ↔
        a ≠ "0" ∧ strContains e "VM execution error" = true) ∧
      (∀ a e : String, categorizeError a e = .NegativeOutputDelta ↔
        a ≠ "0" ∧ strContains e "VM execution error" = false ∧
          strContains e "negative output delta" = true) ∧
      (∀ a e : String, categorizeError a e = .SolverCalculationFailed ↔
        a ≠ "0" ∧ strContains e "VM execution error" = false ∧
          strContains e "negative output delta" = false ∧
          strContains e "Swap failed in solver" = true) ∧
      (∀ a e : String, categorizeError a e = .Other ↔
        a ≠ "0" ∧ strContains e "VM execution error" = false ∧
          strContains e "negative output delta" = false ∧
          strContains e "Swap failed in solver" = false) ∧
      categorizeError "0" "x VM execution error y" = .ZeroAmount := by
  refine ⟨?_, ?_, ?_, ?_, ?_, by decide⟩ <;>
    intro a e <;> unfold categorizeError <;> split_ifs <;> simp_all

/-- Claim C3: magnitude bucketing is by absolute value with closed upper
boundaries, each deviation landing in exactly one bucket; the four
boundary examples of the spec evaluate as stated. -/
theorem bucketOf_boundaries :
    (∀ d : ℚ, bucketOf d = .Perfect ↔ |d| = 0) ∧
      (∀ d : ℚ, bucketOf d = .Within1 ↔ 0 < |d| ∧ |d| ≤ 1) ∧
      (∀ d : ℚ, bucketOf d = .Within10 ↔ 1 < |d| ∧ |d| ≤ 10) ∧
      (∀ d : ℚ, bucketOf d = .Within100 ↔ 10 < |d| ∧ |d| ≤ 100) ∧
      (∀ d : ℚ, bucketOf d = .Over100 ↔ 100 < |d|) ∧
      bucketOf 1 = .Within1 ∧ bucketOf 0 = .Perfect ∧
      bucketOf 100 = .Within100 ∧ bucketOf (10001 / 100) = .Over100 := by
  refine ⟨?_, ?_, ?_, ?_, ?_, ?ex1, ?ex2, ?ex3, ?ex4⟩
  case ex1 => norm_num [bucketOf]
  case ex2 => norm_num [bucketOf]
  case ex3 => norm_num [bucketOf, abs_of_nonneg]
  case ex4 => norm_num [bucketOf, abs_of_nonneg]
  all_goals
    intro d
    unfold bucketOf
    split_ifs with h1 h2 h3 h4 <;>
      simp_all <;>
      first
        | linarith [abs_nonneg d]
        | linarith [(abs_nonneg d).lt_of_ne (Ne.symm h1)]
        | (intro h; linarith [abs_nonneg d])

/-- Claim C5: after ingesting any batch, every group's `total` counter is the
sum of its `verified` and `errors` counters. -/
theorem total_eq_verified_add_errors :
    ∀ (l : List Swap) (k : String),
      ((foldIngest l initState).poolStats k).total =
        ((foldIngest l initState).poolStats k).verified +
          ((foldIngest l initState).poolStats k).errors := by
  intro l k
  have ht := foldIngest_nat (fun s => (s.poolStats k).total) _ (step_total k) l initState
  have hv := foldIngest_nat (fun s => (s.poolStats k).verified) _ (step_verified k) l initState
  have he := foldIngest_nat (fun s => (s.poolStats k).errors) _ (step_errors k) l initState
  simp only [initState_poolStats, defaultPoolStats] at ht hv he
  rw [ht, hv, he]
  simp only [Nat.zero_add]
  rw [← sum_map_split]
  apply sum_map_congr
  intro r _
  unfold keyDelta vDelta eDelta
  cases r.verified <;> split_ifs <;> simp

/-- The five bucket deltas of a single record sum to its `verified`
delta as soon as its deviation is present. -/
theorem bucket_deltas_sum (k : String) (r : Swap)
    (h : r.verified = true → r.difference_bps ≠ none) :
    keyDelta k vDelta r =
      keyDelta k (bDelta .Perfect) r + keyDelta k (bDelta .Within1) r +
        keyDelta k (bDelta .Within10) r + keyDelta k (bDelta .Within100) r +
          keyDelta k (bDelta .Over100) r := by
  cases hv : r.verified with
  | false => simp [keyDelta, vDelta, bDelta, hv]
  | true =>
    cases hd : r.difference_bps with
    | none => exact absurd hd (h hv)
    | some d =>
      cases hb : bucketOf d <;>
        simp [keyDelta, vDelta, bDelta, hv, hd, hb]

/-- Claim C4 (amended): whenever every succeeded record of the batch carries a
non-null deviation, each group's `verified` counter equals the sum of
its five magnitude-bucket counters. -/
theorem verified_eq_bucket_sum :
    ∀ (l : List Swap),
      (∀ r ∈ l, r.verified = true → r.difference_bps ≠ none) →
      ∀ (k : String),
        ((foldIngest l initState).poolStats k).verified =
          ((foldIngest l initState).poolStats k).perfect +
            ((foldIngest l initState).poolStats k).within_1bps +
            ((foldIngest l initState).poolStats k).within_10bps +
            ((foldIngest l initState).poolStats k).within_100bps +
            ((foldIngest l initState).poolStats k).over_100bps := by
  intro l hl k
  have hv := foldIngest_nat (fun s => (s.poolStats k).verified) _ (step_verified k) l initState
  have hP := foldIngest_nat (fun s => (s.poolStats k).perfect) _ (step_perfect k) l initState
  have h1 := foldIngest_nat (fun s => (s.poolStats k).within_1bps) _ (step_within1 k) l initState
  have h10 := foldIngest_nat (fun s => (s.poolStats k).within_10bps) _ (step_within10 k) l initState
  have h100 := foldIngest_nat (fun s => (s.poolStats k).within_100bps) _ (step_within100 k) l initState
  have hO := foldIngest_nat (fun s => (s.poolStats k).over_100bps) _ (step_over100 k) l initState
  simp only [initState_poolStats, defaultPoolStats] at hv hP h1 h10 h100 hO
  rw [hv, hP, h1, h10, h100, hO]
  simp only [Nat.zero_add]
  rw [← sum_map_split, ← sum_map_split, ← sum_map_split, ← sum_map_split]
  apply sum_map_congr
  intro r hr
  exact bucket_deltas_sum k r (hl r hr)

/-- Claim C4 counterexample: ingesting one succeeded record with a null
deviation leaves `verified = 1` while the five bucket counters sum to
`0`, so the succeeded counter differs from the bucket sum. -/
theorem verified_ne_bucket_sum_on_null_deviation :
    ((foldIngest [nullDeviationSwap] initState).poolStats
        "weightedProduct V2").verified = 1 ∧
    ((foldIngest [nullDeviationSwap] initState).poolStats
          "weightedProduct V2").perfect +
        ((foldIngest [nullDeviationSwap] initState).poolStats
          "weightedProduct V2").within_1bps +
        ((foldIngest [nullDeviationSwap] initState).poolStats
          "weightedProduct V2").within_10bps +
        ((foldIngest [nullDeviationSwap] initState).poolStats
          "weightedProduct V2").within_100bps +
        ((foldIngest [nullDeviationSwap] initState).poolStats
          "weightedProduct V2").over_100bps = 0 := by
  constructor <;> rfl

theorem verified_eq_bucket_sum_witness :
    ((foldIngest [perfectSwap] initState).poolStats
        "weightedProduct V2").verified =
      ((foldIngest [perfectSwap] initState).poolStats
          "weightedProduct V2").perfect +
        ((foldIngest [perfectSwap] initState).poolStats
          "weightedProduct V2").within_1bps +
        ((foldIngest [perfectSwap] initState).poolStats
          "weightedProduct V2").within_10bps +
        ((foldIngest [perfectSwap] initState).poolStats
          "weightedProduct V2").within_100bps +
        ((foldIngest [perfectSwap] initState).poolStats
          "weightedProduct V2").over_100bps :=
  verified_eq_bucket_sum [perfectSwap]
    (by intro r hr _; simp at hr; subst hr; simp [perfectSwap])
    "weightedProduct V2"

/-- Claim C10: the three global error counters partition the global error
total after any batch. -/
theorem global_error_partition :
    ∀ (l : List Swap),
      (foldIngest l initState).zeroAmountErrors +
          (foldIngest l initState).vmErrors +
          (foldIngest l initState).otherErrors =
        (foldIngest l initState).totalErrors := by
  intro l
  have hz := foldIngest_nat (fun s => s.zeroAmountErrors) _ analyzeSwap_zeroAmountErrors l initState
  have hv := foldIngest_nat (fun s => s.vmErrors) _ analyzeSwap_vmErrors l initState
  have ho := foldIngest_nat (fun s => s.otherErrors) _ analyzeSwap_otherErrors l initState
  have ht := foldIngest_nat (fun s => s.totalErrors) _ analyzeSwap_totalErrors l initState
  rw [hz, hv, ho, ht]
  simp only [initState, Nat.zero_add]
  rw [← sum_map_split, ← sum_map_split]
  apply sum_map_congr
  intro r _
  unfold gDelta
  cases r.verified with
  | false => cases categorizeError r.amount_in r.errText <;> simp
  | true => simp

/-- One merged-versus-sequential counter: an observation that is zero
initially and grows by per-record deltas takes the same value on the
unsplit batch as the sum of its values on the two shards. -/
theorem merge_counter (g : State → ℕ) (δ : Swap → ℕ)
    (h : ∀ s r, g (analyzeSwap s r) = g s + δ r) (h0 : g initState = 0)
    (l₁ l₂ : List Swap) :
    g (foldIngest l₁ initState) + g (foldIngest l₂ initState) =
      g (foldIngest (l₁ ++ l₂) initState) := by
  rw [foldIngest_nat g δ h, foldIngest_nat g δ h, foldIngest_nat g δ h, h0]
  simp [List.sum_append]

/-- The merged-versus-sequential law for the per-group sample lists. -/
theorem merge_samples (l₁ l₂ : List Swap) (k : String) :
    (foldIngest l₁ initState).diffDists k ++
        (foldIngest l₂ initState).diffDists k =
      (foldIngest (l₁ ++ l₂) initState).diffDists k := by
  have h : ∀ l : List Swap, (foldIngest l initState).diffDists k =
      initState.diffDists k ++
        (l.map (fun r => if k = poolKeyOf r then sampleOf r else [])).flatten :=
    fun l => foldIngest_list (fun s => s.diffDists k)
      (fun r => if k = poolKeyOf r then sampleOf r else [])
      (fun s r => analyzeSwap_diffDists s r k) l initState
  rw [h, h, h]
  simp [initState]

/-- Claim C7: splitting a batch at any point, ingesting the parts into fresh
analyzers, and merging (counters summed, sample lists concatenated)
reproduces the group counters and the sample list of the sequential
unsplit run, and hence its percentile outputs. -/
theorem shard_merge_eq_sequential :
    ∀ (l₁ l₂ : List Swap) (k : String),
      (((foldIngest l₁ initState).poolStats k).total +
            ((foldIngest l₂ initState).poolStats k).total =
          ((foldIngest (l₁ ++ l₂) initState).poolStats k).total ∧
        ((foldIngest l₁ initState).poolStats k).verified +
            ((foldIngest l₂ initState).poolStats k).verified =
          ((foldIngest (l₁ ++ l₂) initState).poolStats k).verified ∧
        ((foldIngest l₁ initState).poolStats k).errors +
            ((foldIngest l₂ initState).poolStats k).errors =
          ((foldIngest (l₁ ++ l₂) initState).poolStats k).errors ∧
        ((foldIngest l₁ initState).poolStats k).perfect +
            ((foldIngest l₂ initState).poolStats k).perfect =
          ((foldIngest (l₁ ++ l₂) initState).poolStats k).perfect ∧
        ((foldIngest l₁ initState).poolStats k).within_1bps +
            ((foldIngest l₂ initState).poolStats k).within_1bps =
          ((foldIngest (l₁ ++ l₂) initState).poolStats k).within_1bps ∧
        ((foldIngest l₁ initState).poolStats k).within_10bps +
            ((foldIngest l₂ initState).poolStats k).within_10bps =
          ((foldIngest (l₁ ++ l₂) initState).poolStats k).within_10bps ∧
        ((foldIngest l₁ initState).poolStats k).within_100bps +
            ((foldIngest l₂ initState).poolStats k).within_100bps =
          ((foldIngest (l₁ ++ l₂) initState).poolStats k).within_100bps ∧
        ((foldIngest l₁ initState).poolStats k).over_100bps +
            ((foldIngest l₂ initState).poolStats k).over_100bps =
          ((foldIngest (l₁ ++ l₂) initState).poolStats k).over_100bps) ∧
      (foldIngest l₁ initState).diffDists k ++
          (foldIngest l₂ initState).diffDists k =
        (foldIngest (l₁ ++ l₂) initState).diffDists k ∧
      percentiles
          ((foldIngest l₁ initState).diffDists k ++
            (foldIngest l₂ initState).diffDists k) =
        percentiles ((foldIngest (l₁ ++ l₂) initState).diffDists k) := by
  intro l₁ l₂ k
  have hd := merge_samples l₁ l₂ k
  refine ⟨⟨?_, ?_, ?_, ?_, ?_, ?_, ?_, ?_⟩, hd, by rw [hd]⟩
  · exact merge_counter (fun s => (s.poolStats k).total) (keyDelta k (fun _ => 1)) (step_total k) (by rfl) l₁ l₂
  · exact merge_counter (fun s => (s.poolStats k).verified) (keyDelta k vDelta) (step_verified k) (by rfl) l₁ l₂
  · exact merge_counter (fun s => (s.poolStats k).errors) (keyDelta k eDelta) (step_errors k) (by rfl) l₁ l₂
  · exact merge_counter (fun s => (s.poolStats k).perfect) (keyDelta k (bDelta .Perfect)) (step_perfect k) (by rfl) l₁ l₂
  · exact merge_counter (fun s => (s.poolStats k).within_1bps) (keyDelta k (bDelta .Within1)) (step_within1 k) (by rfl) l₁ l₂
  · exact merge_counter (fun s => (s.poolStats k).within_10bps) (keyDelta k (bDelta .Within10)) (step_within10 k) (by rfl) l₁ l₂
  · exact merge_counter (fun s => (s.poolStats k).within_100bps) (keyDelta k (bDelta .Within100)) (step_within100 k) (by rfl) l₁ l₂
  · exact merge_counter (fun s => (s.poolStats k).over_100bps) (keyDelta k (bDelta .Over100)) (step_over100 k) (by rfl) l₁ l₂

theorem vstatsFor_isSome (s : State) (t v : String) :
    (vstatsFor s t v).isSome = true ↔
      ∃ p ∈ poolItems s, p.2.pool_type = t ∧ p.2.version = v := by
  unfold vstatsFor
  simp [List.find?_isSome, List.mem_reverse]

theorem compRow_poolType {s : State} {t : String} {row : CompRow}
    (h : compRow s t = some row) : row.poolType = t := by
  unfold compRow at h
  cases h2 : vstatsFor s t "V2" <;> cases h3 : vstatsFor s t "V3" <;>
    rw [h2, h3] at h <;> simp at h
  rw [← h]

/-- Claim C6: a pool type gets a comparison row exactly when it occurs under
both version labels, and every emitted difference (success rate,
perfect-match rate, p99) is the V2 value minus the V3 value. -/
theorem comparison_table_spec :
    ∀ (s : State) (t : String),
      ((∃ row ∈ comparisonTable s, row.poolType = t) ↔
        ((∃ p ∈ poolItems s, p.2.pool_type = t ∧ p.2.version = "V2") ∧
          (∃ p ∈ poolItems s, p.2.pool_type = t ∧ p.2.version = "V3"))) ∧
      ∀ row ∈ comparisonTable s,
        row.successDelta = row.v2Success - row.v3Success ∧
          row.perfectDelta = row.v2Perfect - row.v3Perfect ∧
          ∀ x ∈ row.p99Pair, x.2.2 = x.1 - x.2.1 := by
  intro s t
  constructor
  · constructor
    · rintro ⟨row, hrow, hpt⟩
      obtain ⟨t', ht', hcr⟩ := List.mem_filterMap.mp hrow
      have : t' = t := by rw [← compRow_poolType hcr, hpt]
      subst this
      unfold compRow at hcr
      cases h2 : vstatsFor s t' "V2" <;> cases h3 : vstatsFor s t' "V3" <;>
        rw [h2, h3] at hcr <;> simp at hcr
      constructor
      · exact (vstatsFor_isSome s t' "V2").mp (by rw [h2]; rfl)
      · exact (vstatsFor_isSome s t' "V3").mp (by rw [h3]; rfl)
    · rintro ⟨h2, h3⟩
      have hs2 := (vstatsFor_isSome s t "V2").mpr h2
      have hs3 := (vstatsFor_isSome s t "V3").mpr h3
      obtain ⟨a, ha⟩ := Option.isSome_iff_exists.mp hs2
      obtain ⟨b, hb⟩ := Option.isSome_iff_exists.mp hs3
      have hmem : t ∈ ((poolItems s).map (fun p => p.2.pool_type)).dedup := by
        rw [List.mem_dedup]
        obtain ⟨p, hp, hpt, _⟩ := h2
        exact List.mem_map.mpr ⟨p, hp, hpt⟩
      have hrow : ∃ row, compRow s t = some row := by
        unfold compRow
        rw [ha, hb]
        exact ⟨_, rfl⟩
      obtain ⟨row, hrow⟩ := hrow
      exact ⟨row, List.mem_filterMap.mpr ⟨t, hmem, hrow⟩, compRow_poolType hrow⟩
  · intro row hrow
    obtain ⟨t', _, hcr⟩ := List.mem_filterMap.mp hrow
    unfold compRow at hcr
    cases h2 : vstatsFor s t' "V2" <;> cases h3 : vstatsFor s t' "V3" <;>
      rw [h2, h3] at hcr <;> simp at hcr
    rw [← hcr]
    refine ⟨rfl, rfl, ?_⟩
    intro x hx
    simp only at hx
    split_ifs at hx with hd
    · simp at hx
      rw [← hx]
    · simp at hx

theorem comparison_table_spec_witness :
    ∃ row ∈ comparisonTable bothVersionsState, row.poolType = "stable" :=
  (comparison_table_spec bothVersionsState "stable").1.mpr ⟨by decide, by decide⟩

/-- Claim C8: for every key of the union table, the utilization ratio is
`used / available` when availability is positive and the defined value
`0` when availability is zero, whatever `used` is. -/
theorem utilization_ratio_total :
    ∀ (s : State) (t : String), t ∈ allTypes s →
      (s.availableLiquidity t = 0 → utilizationRatio s t = 0) ∧
        (0 < s.availableLiquidity t →
          utilizationRatio s t =
            (usedByType s t : ℚ) / (s.availableLiquidity t : ℚ)) := by
  intro s t _
  unfold utilizationRatio
  constructor
  · intro h; rw [h]; simp
  · intro h; rw [if_pos h]

theorem utilization_ratio_total_witness :
    "gyroE" ∈ allTypes usedOnlyState ∧
      usedByType usedOnlyState "gyroE" = 5 ∧
      usedOnlyState.availableLiquidity "gyroE" = 0 ∧
      utilizationRatio usedOnlyState "gyroE" = 0 :=
  ⟨by decide, by decide, by decide,
    (utilization_ratio_total usedOnlyState "gyroE" (by decide)).1 (by decide)⟩

/-- Claim C9 counterexample: normalizing a record with no resolvable primary
key does not fail — it produces a `Swap` whose primary key is the
default `"unknown"` (empty string for the order analyzer's sell token),
and that record is then ingested normally under the defaulted key. -/
theorem normalize_defaults_keyless :
    normalizeSwap keylessRawSwap =
      { kind := "unknown", pool_version := "Unknown", verified := false
      , difference_bps := none, errText := "", amount_in := "0" } ∧
      orderSellToken { sellToken := none, sellTokenSnake := none } = "" ∧
      ((foldIngest [normalizeSwap keylessRawSwap] initState).poolStats
          "unknown Unknown").total = 1 :=
  ⟨rfl, rfl, by decide⟩

/-- Claim C9 (amended): normalization is total; a missing primary key is
defaulted (`"unknown"` for the swap analyzer, `""` for the order
analyzer) instead of raising a malformed-record error. -/
theorem normalize_total_with_defaults :
    (∀ raw : RawSwap, raw.kind = none →
        (normalizeSwap raw).kind = "unknown") ∧
      (∀ f : RawOrderKeys, f.sellToken = none → f.sellTokenSnake = none →
        orderSellToken f = "") := by
  constructor
  · intro raw h; simp [normalizeSwap, h]
  · intro f h1 h2; simp [orderSellToken, h1, h2]

theorem normalize_total_with_defaults_witness :
    (normalizeSwap keylessRawSwap).kind = "unknown" ∧
      orderSellToken { sellToken := none, sellTokenSnake := none } = "" :=
  ⟨normalize_total_with_defaults.1 keylessRawSwap rfl,
    normalize_total_with_defaults.2 { sellToken := none, sellTokenSnake := none } rfl rfl⟩

end SwapLog
